import Mathlib

/-!
# Verification of the Mixpanel telemetry façade (`src/1.0-mixpanel-implementation.ts`)

A shallow embedding of the initialization / queueing / delivery state machine of
`src/utils/mixpanel.ts`.  The external `mixpanel-browser` transport (the "sink")
is modelled as an oracle (`SinkBehavior`) deciding which sink operations throw;
the calls issued to the sink are recorded in a trace (`SinkCall`).  Module-level
mutable variables (`mixpanelDebugMode`, `mixpanelInitialized`, `eventBackupQueue`)
become an explicit state record (`MPState`) threaded through every operation.
A façade operation that may let a JavaScript exception escape to the caller is
given the type `Except Unit _`; the `try`/`catch` blocks of the source are
modelled explicitly, with the body of each `try` block as a separate definition
whose `.error` result carries the sink calls and log lines emitted before the
throw.
-/

set_option linter.unusedVariables false

namespace Mixpanel

/-- JavaScript values occurring in event payloads: strings, numbers, booleans,
arrays of strings (`models_used`), and null/undefined. -/
inductive Value where
  | str (s : String)
  | num (n : Int)
  | bool (b : Bool)
  | strList (xs : List String)
  | null
deriving DecidableEq, Repr

/-- JavaScript truthiness, as used by `payload.timestamp || new Date().toISOString()`:
the empty string, 0, `false` and null/undefined are falsy; arrays are truthy. -/
def truthy : Value → Bool
  | .str s => s ≠ ""
  | .num n => n ≠ 0
  | .bool b => b
  | .strList _ => true
  | .null => false

/-- A payload object: a key-value association list with unique keys. -/
abbrev Payload := List (String × Value)

/-- Field lookup on a payload object. -/
def getField (p : Payload) (k : String) : Option Value :=
  (p.find? (fun kv => kv.1 == k)).map (fun kv => kv.2)

/-- Setting a field of a payload object, as the object spread
`\x7b...payload, k: v\x7d` does: the previous binding of `k` (if any) is
replaced, all other fields are kept. -/
def setField (p : Payload) (k : String) (v : Value) : Payload :=
  p.filter (fun kv => kv.1 != k) ++ [(k, v)]

/-- The closed set of event kinds (`keyof MixpanelEventPayloads`). -/
inductive EventName where
  | SessionStarted | SessionEnded | TimeBetweenSessions
  | DiscussionStarted | ProsAndConsGenerated | DecisionCompleted
  | AbandonedDiscussion | OpenedSummaryView | UserLeftAppMidway
  | AIInteracted | ClickedAIResponse
  | FeedbackButtonClicked | FeedbackSubmitted
deriving DecidableEq, Repr

/-- The string an `EventName` is passed to the sink as (`eventName as string`). -/
def eventNameStr : EventName → String
  | .SessionStarted => "SessionStarted"
  | .SessionEnded => "SessionEnded"
  | .TimeBetweenSessions => "TimeBetweenSessions"
  | .DiscussionStarted => "DiscussionStarted"
  | .ProsAndConsGenerated => "ProsAndConsGenerated"
  | .DecisionCompleted => "DecisionCompleted"
  | .AbandonedDiscussion => "AbandonedDiscussion"
  | .OpenedSummaryView => "OpenedSummaryView"
  | .UserLeftAppMidway => "UserLeftAppMidway"
  | .AIInteracted => "AIInteracted"
  | .ClickedAIResponse => "ClickedAIResponse"
  | .FeedbackButtonClicked => "FeedbackButtonClicked"
  | .FeedbackSubmitted => "FeedbackSubmitted"

/-- The `EventCategory` string enum. -/
inductive EventCategory where
  | USER_ENGAGEMENT | DECISION_FLOW | AI_INTERACTION | FEEDBACK | SESSION
deriving DecidableEq, Repr

/-- The string value of each `EventCategory` enum member. -/
def EventCategory.val : EventCategory → String
  | .USER_ENGAGEMENT => "User Engagement"
  | .DECISION_FLOW => "Decision Flow"
  | .AI_INTERACTION => "AI Interaction"
  | .FEEDBACK => "Feedback"
  | .SESSION => "Session"

/-- The `EVENT_CATEGORIES` map of event names to their categories. -/
def EVENT_CATEGORIES : EventName → EventCategory
  | .SessionStarted => .SESSION
  | .SessionEnded => .SESSION
  | .TimeBetweenSessions => .SESSION
  | .DiscussionStarted => .DECISION_FLOW
  | .ProsAndConsGenerated => .DECISION_FLOW
  | .DecisionCompleted => .DECISION_FLOW
  | .AbandonedDiscussion => .DECISION_FLOW
  | .OpenedSummaryView => .DECISION_FLOW
  | .UserLeftAppMidway => .DECISION_FLOW
  | .AIInteracted => .AI_INTERACTION
  | .ClickedAIResponse => .AI_INTERACTION
  | .FeedbackButtonClicked => .FEEDBACK
  | .FeedbackSubmitted => .FEEDBACK

/-- An entry of `eventBackupQueue`: the object `\x7bname, props\x7d`. -/
structure QueuedEvent where
  name : String
  props : Payload
deriving DecidableEq, Repr

/-- The module-level mutable state: `mixpanelDebugMode`, `mixpanelInitialized`
and `eventBackupQueue`. -/
structure MPState where
  debugMode : Bool
  initialized : Bool
  queue : List QueuedEvent
deriving DecidableEq, Repr

/-- `MAX_QUEUE_SIZE`: the backlog queue capacity. -/
abbrev MAX_QUEUE_SIZE : Nat := 50

/-- `MAX_RETRIES` inside `initMixpanel`. -/
abbrev MAX_RETRIES : Nat := 3

/-- The module state at load time: debug off, not initialized, empty queue. -/
def startState : MPState := ⟨false, false, []⟩

/-- The options object passed to `mixpanel.init` (second argument). -/
structure MixpanelConfig where
  debug : Bool
  ignore_dnt : Bool
  batch_requests : Bool
  api_host : String
  persistence : String
deriving DecidableEq, Repr

/-- Builds the `mixpanel.init` options object from the current debug mode. -/
def mkConfig (debug : Bool) : MixpanelConfig :=
  ⟨debug, true, false, "https://api.mixpanel.com", "localStorage"⟩

/-- A call issued to the external sink (the `mixpanel` module). -/
inductive SinkCall where
  | init (token : String) (config : MixpanelConfig)
  | register (props : Payload)
  | track (name : String) (props : Payload)
  | identify (userId : String)
  | peopleSet (props : Payload)
  | reset
deriving DecidableEq, Repr

/-- The sink's behavior, as an oracle deciding which operations throw.
Initialization-phase operations are indexed by the attempt number. -/
structure SinkBehavior where
  initFails : Nat → Bool
  registerFails : Nat → Bool
  trackFails : String → Payload → Bool
  identifyFails : String → Bool
  peopleSetFails : Payload → Bool
  resetFails : Bool

/-- The browser environment: whether `navigator.userAgent` matches `/Mobi|Android/i`. -/
structure Env where
  isMobile : Bool
deriving DecidableEq, Repr

/-- The platform classification computed from `navigator.userAgent`. -/
def platformOf (env : Env) : String := if env.isMobile then "mobile" else "web"

/-- Payload enrichment done by `trackEvent`: the spread
`\x7b...payload, event_category: EVENT_CATEGORIES[eventName],
timestamp: payload.timestamp || new Date().toISOString()\x7d`.
`now` stands for the result of `new Date().toISOString()` at the call. -/
def enrich (eventName : EventName) (now : String) (payload : Payload) : Payload :=
  let ts : Value :=
    match getField payload "timestamp" with
    | some v => if truthy v then v else .str now
    | none => .str now
  setField (setField payload "event_category"
    (.str (EVENT_CATEGORIES eventName).val)) "timestamp" ts

/-- `flushEventQueue`'s while loop: shift the head, `try` to `mixpanel.track`
it (the call is issued even when it throws; the throw is caught and logged),
and continue with the rest.  Returns the sink calls and the error-log lines. -/
def flushLoop (beh : SinkBehavior) : List QueuedEvent → List SinkCall × List String
  | [] => ([], [])
  | ev :: rest =>
      let tail := flushLoop beh rest
      (SinkCall.track ev.name ev.props :: tail.1,
        (if beh.trackFails ev.name ev.props
          then ["Failed to flush event " ++ ev.name] else []) ++ tail.2)

/-- `flushEventQueue`: returns early unless initialized and non-empty;
otherwise logs the count in debug mode and drains the whole queue. -/
def flushEventQueue (beh : SinkBehavior) (s : MPState) :
    MPState × List SinkCall × List String :=
  if !s.initialized || s.queue.isEmpty then (s, [], [])
  else
    let hdr := if s.debugMode
      then ["Flushing " ++ toString s.queue.length ++ " backed up events"] else []
    let out := flushLoop beh s.queue
    ({ s with queue := [] }, out.1, hdr ++ out.2)

/-- How many times a caller-supplied callback runs when the code path invokes
it once: `if (callback) callback()`. -/
def callbackRuns (callback : Bool) : Nat := if callback then 1 else 0

/-- The result of one façade call: the new module state, the sink calls issued,
how many times the caller's callback ran, and the log lines emitted. -/
structure CallOut where
  state : MPState
  calls : List SinkCall
  cbRuns : Nat
  logs : List String
deriving DecidableEq, Repr

/-- The body of `trackEvent`'s `try` block.  An `.error` result means the block
threw; it carries the sink calls and logs emitted before the throw.  The only
fallible step is `mixpanel.track` (enrichment, the queue push and the logs
cannot throw). -/
def trackEventTry (beh : SinkBehavior) (now : String) (eventName : EventName)
    (payload : Payload) (callback : Bool) (s : MPState) :
    Except (List SinkCall × List String) CallOut :=
  let enrichedPayload := enrich eventName now payload
  if !s.initialized then
    if s.queue.length < MAX_QUEUE_SIZE then
      .ok ⟨{ s with queue := s.queue ++ [⟨eventNameStr eventName, enrichedPayload⟩] },
        [], callbackRuns callback,
        if s.debugMode
          then ["Queued event " ++ eventNameStr eventName ++ " (Mixpanel not initialized)"]
          else []⟩
    else
      .ok ⟨s, [], callbackRuns callback, []⟩
  else
    let dbg := if s.debugMode
      then ["Tracking event: " ++ eventNameStr eventName] else []
    if beh.trackFails (eventNameStr eventName) enrichedPayload then
      .error ([SinkCall.track (eventNameStr eventName) enrichedPayload], dbg)
    else
      .ok ⟨s, [SinkCall.track (eventNameStr eventName) enrichedPayload],
        callbackRuns callback, dbg⟩

/-- `trackEvent`: the `try` body wrapped in the `catch` block, which logs the
failure and still invokes the callback.  An `.error` result would mean an
exception escaped to the caller. -/
def trackEvent (beh : SinkBehavior) (now : String) (eventName : EventName)
    (payload : Payload) (callback : Bool) (s : MPState) : Except Unit CallOut :=
  match trackEventTry beh now eventName payload callback s with
  | .ok r => .ok r
  | .error e => .ok ⟨s, e.1, callbackRuns callback,
      e.2 ++ ["Mixpanel tracking failed for event " ++ eventNameStr eventName]⟩

/-- The body of `identifyUser`'s `try` block: warn-and-return when not
initialized, otherwise `mixpanel.identify` then optionally `mixpanel.people.set`. -/
def identifyUserTry (beh : SinkBehavior) (userId : String)
    (userProperties : Option Payload) (s : MPState) :
    Except (List SinkCall × List String) CallOut :=
  if !s.initialized then
    .ok ⟨s, [], 0, ["Cannot identify user - Mixpanel not initialized"]⟩
  else
    if beh.identifyFails userId then
      .error ([SinkCall.identify userId], [])
    else
      match userProperties with
      | some props =>
        if beh.peopleSetFails props then
          .error ([SinkCall.identify userId, SinkCall.peopleSet props], [])
        else
          .ok ⟨s, [SinkCall.identify userId, SinkCall.peopleSet props], 0,
            if s.debugMode then ["Identified user: " ++ userId] else []⟩
      | none =>
        .ok ⟨s, [SinkCall.identify userId], 0,
          if s.debugMode then ["Identified user: " ++ userId] else []⟩

/-- `identifyUser`: `try` body plus the `catch` block (log, return). -/
def identifyUser (beh : SinkBehavior) (userId : String)
    (userProperties : Option Payload) (s : MPState) : Except Unit CallOut :=
  match identifyUserTry beh userId userProperties s with
  | .ok r => .ok r
  | .error e => .ok ⟨s, e.1, 0, e.2 ++ ["Failed to identify user in Mixpanel"]⟩

/-- The body of `resetUser`'s `try` block. -/
def resetUserTry (beh : SinkBehavior) (s : MPState) :
    Except (List SinkCall × List String) CallOut :=
  if !s.initialized then
    .ok ⟨s, [], 0, ["Cannot reset user - Mixpanel not initialized"]⟩
  else
    if beh.resetFails then
      .error ([SinkCall.reset], [])
    else
      .ok ⟨s, [SinkCall.reset], 0,
        if s.debugMode then ["Reset user identity"] else []⟩

/-- `resetUser`: `try` body plus the `catch` block (log, return). -/
def resetUser (beh : SinkBehavior) (s : MPState) : Except Unit CallOut :=
  match resetUserTry beh s with
  | .ok r => .ok r
  | .error e => .ok ⟨s, e.1, 0, e.2 ++ ["Failed to reset user in Mixpanel"]⟩

/-- The outcome of `initMixpanel`: the final module state, the sink calls each
tagged with the virtual time (in ms since the `initMixpanel` call) at which the
attempt issuing them runs, and the log lines. -/
structure InitOut where
  state : MPState
  calls : List (Nat × SinkCall)
  logs : List String
deriving DecidableEq, Repr

/-- The default properties registered after a successful `mixpanel.init`. -/
def registerProps (env : Env) : Payload :=
  [("platform", .str (platformOf env)), ("app_version", .str "1.0.0")]

/-- The inner `initialize` closure of `initMixpanel`, unrolled over the retry
chain.  `t` is the virtual time this invocation runs at and `retries` the
current value of the `retries` counter; `retriesLeft = MAX_RETRIES - retries`
is the same information phrased as a decreasing argument, so the source's guard
`retries < MAX_RETRIES` is the pattern `retriesLeft = r + 1`.

One invocation: `try` \x7b `mixpanel.init` (may throw); `mixpanel.register`
(may throw); set `mixpanelInitialized = true`; `flushEventQueue()` (never
throws, its per-event failures are caught inside it) \x7d `catch` \x7b log; if
`retries < MAX_RETRIES` then `retries++` and re-run after
`1000 * Math.pow(2, retries)` ms (note: the increment happens before the delay
is computed) else log permanent failure \x7d. -/
def initLoop (beh : SinkBehavior) (env : Env) (token : String)
    (t : Nat) (retries : Nat) (retriesLeft : Nat) (s : MPState) : InitOut :=
  let attemptLog := if s.debugMode
    then ["Initializing Mixpanel (attempt " ++ toString (retries + 1) ++ ")"] else []
  let initCall : Nat × SinkCall := (t, SinkCall.init token (mkConfig s.debugMode))
  let errLog := ["Failed to initialize Mixpanel (attempt " ++ toString (retries + 1) ++ ")"]
  if beh.initFails retries then
    match retriesLeft with
    | r + 1 =>
      let next := initLoop beh env token
        (t + 1000 * 2 ^ (retries + 1)) (retries + 1) r s
      ⟨next.state, initCall :: next.calls, attemptLog ++ errLog ++ next.logs⟩
    | 0 =>
      ⟨s, [initCall], attemptLog ++ errLog ++
        ["Mixpanel initialization failed after " ++ toString MAX_RETRIES ++ " attempts"]⟩
  else
    let regCall : Nat × SinkCall := (t, SinkCall.register (registerProps env))
    if beh.registerFails retries then
      match retriesLeft with
      | r + 1 =>
        let next := initLoop beh env token
          (t + 1000 * 2 ^ (retries + 1)) (retries + 1) r s
        ⟨next.state, initCall :: regCall :: next.calls, attemptLog ++ errLog ++ next.logs⟩
      | 0 =>
        ⟨s, [initCall, regCall], attemptLog ++ errLog ++
          ["Mixpanel initialization failed after " ++ toString MAX_RETRIES ++ " attempts"]⟩
    else
      let s1 := { s with initialized := true }
      let okLog := if s.debugMode then ["Mixpanel initialized successfully"] else []
      let fl := flushEventQueue beh s1
      ⟨fl.1, initCall :: regCall :: fl.2.1.map (fun c => (t, c)),
        attemptLog ++ okLog ++ fl.2.2⟩

/-- `initMixpanel`: sets `mixpanelDebugMode` from the `debug` argument, resets
the local `retries` counter to 0, and starts the first `initialize` invocation
immediately (virtual time 0). -/
def initMixpanel (beh : SinkBehavior) (env : Env) (token : String) (debug : Bool)
    (s : MPState) : InitOut :=
  initLoop beh env token 0 0 MAX_RETRIES { s with debugMode := debug }

/-- Picks the timestamp of a timed sink call when it is a `mixpanel.init` call. -/
def initTimePick : Nat × SinkCall → Option Nat := fun tc =>
  match tc.2 with
  | .init _ _ => some tc.1
  | _ => none

/-- The virtual times at which `mixpanel.init` calls are issued, in order. -/
def initTimesOf (out : InitOut) : List Nat :=
  out.calls.filterMap initTimePick

/-- Recognizes a `mixpanel.init` call. -/
def isInitCall : SinkCall → Bool
  | .init _ _ => true
  | _ => false

/-- Recognizes a `mixpanel.track` call. -/
def isTrackCall : SinkCall → Bool
  | .track _ _ => true
  | _ => false

/-- Recognizes the data-bearing sink operations: `track`, `identify`,
`people.set` and `reset` (excludes `init` and `register`). -/
def isDataCall : SinkCall → Bool
  | .track _ _ => true
  | .identify _ => true
  | .peopleSet _ => true
  | .reset => true
  | _ => false

/-- The `track` calls of a sink trace. -/
def trackCalls (cs : List SinkCall) : List SinkCall := cs.filter isTrackCall

/-- The data-bearing calls of a sink trace. -/
def dataCalls (cs : List SinkCall) : List SinkCall := cs.filter isDataCall

namespace SessionEvents

/-- `SessionEvents.trackSessionStart`. -/
def trackSessionStart (beh : SinkBehavior) (env : Env) (now : String)
    (userType : String) (s : MPState) : Except Unit CallOut :=
  trackEvent beh now .SessionStarted
    [("timestamp", .str now), ("user_type", .str userType),
      ("platform", .str (platformOf env))] false s

/-- `SessionEvents.trackSessionEnd`; `nowMs` stands for `Date.now()`. -/
def trackSessionEnd (beh : SinkBehavior) (now : String) (nowMs startTime : Int)
    (pagesVisited : Int) (s : MPState) : Except Unit CallOut :=
  trackEvent beh now .SessionEnded
    [("duration", .num (nowMs - startTime)), ("pages_visited", .num pagesVisited)]
    false s

end SessionEvents

namespace DecisionEvents

/-- `DecisionEvents.trackDiscussionStart`. -/
def trackDiscussionStart (beh : SinkBehavior) (now : String) (decisionType : String)
    (s : MPState) : Except Unit CallOut :=
  trackEvent beh now .DiscussionStarted
    [("decision_type", .str decisionType), ("timestamp", .str now)] false s

/-- `DecisionEvents.trackDecisionComplete`. -/
def trackDecisionComplete (beh : SinkBehavior) (now : String) (decisionType : String)
    (nowMs startTime : Int) (wasHelpful : Bool) (s : MPState) : Except Unit CallOut :=
  trackEvent beh now .DecisionCompleted
    [("decision_type", .str decisionType), ("completion_time", .num (nowMs - startTime)),
      ("was_helpful", .bool wasHelpful)] false s

/-- `DecisionEvents.trackSummaryView`. -/
def trackSummaryView (beh : SinkBehavior) (now : String) (fromStep : String)
    (s : MPState) : Except Unit CallOut :=
  trackEvent beh now .OpenedSummaryView [("from_step", .str fromStep)] false s

/-- `DecisionEvents.trackAbandonedDiscussion`. -/
def trackAbandonedDiscussion (beh : SinkBehavior) (now : String)
    (inactivityDuration : Int) (currentStep : String) (s : MPState) :
    Except Unit CallOut :=
  trackEvent beh now .AbandonedDiscussion
    [("inactivity_duration", .num inactivityDuration), ("current_step", .str currentStep)]
    false s

end DecisionEvents

namespace AIEvents

/-- `AIEvents.trackAIInteraction`. -/
def trackAIInteraction (beh : SinkBehavior) (now : String) (model actionType : String)
    (responseTime : Int) (s : MPState) : Except Unit CallOut :=
  trackEvent beh now .AIInteracted
    [("model", .str model), ("action_type", .str actionType),
      ("response_time", .num responseTime)] false s

/-- `AIEvents.trackClickedResponse`. -/
def trackClickedResponse (beh : SinkBehavior) (now : String) (model : String)
    (position : Int) (s : MPState) : Except Unit CallOut :=
  trackEvent beh now .ClickedAIResponse
    [("model", .str model), ("position", .num position)] false s

/-- `AIEvents.trackProsAndConsGenerated`. -/
def trackProsAndConsGenerated (beh : SinkBehavior) (now : String)
    (models : List String) (elapsedTime : Int) (s : MPState) : Except Unit CallOut :=
  trackEvent beh now .ProsAndConsGenerated
    [("models_used", .strList models), ("elapsed_time", .num elapsedTime)] false s

end AIEvents

namespace FeedbackEvents

/-- `FeedbackEvents.trackFeedbackButtonClicked`. -/
def trackFeedbackButtonClicked (beh : SinkBehavior) (now : String) (s : MPState) :
    Except Unit CallOut :=
  trackEvent beh now .FeedbackButtonClicked [] false s

/-- `FeedbackEvents.trackFeedbackSubmission`. -/
def trackFeedbackSubmission (beh : SinkBehavior) (now : String)
    (feedbackText : String) (s : MPState) : Except Unit CallOut :=
  trackEvent beh now .FeedbackSubmitted [("feedback_text", .str feedbackText)] false s

end FeedbackEvents

/-- A call the host application makes against the façade. -/
inductive Op where
  | track (now : String) (eventName : EventName) (payload : Payload) (callback : Bool)
  | identify (userId : String) (userProperties : Option Payload)
  | reset
  | initMP (token : String) (debug : Bool)
deriving Repr

/-- Runs one host-application call against the module state, returning the new
state, the sink calls issued and the log lines.  The façade never lets an
exception escape (see the theorems below), so the `.error` branches are
unreachable; they keep the runner total. -/
def runOp (beh : SinkBehavior) (env : Env) (op : Op) (s : MPState) :
    MPState × List SinkCall × List String :=
  match op with
  | .track now e p cb =>
    match trackEvent beh now e p cb s with
    | .ok r => (r.state, r.calls, r.logs)
    | .error _ => (s, [], [])
  | .identify uid props =>
    match identifyUser beh uid props s with
    | .ok r => (r.state, r.calls, r.logs)
    | .error _ => (s, [], [])
  | .reset =>
    match resetUser beh s with
    | .ok r => (r.state, r.calls, r.logs)
    | .error _ => (s, [], [])
  | .initMP token debug =>
    let out := initMixpanel beh env token debug s
    (out.state, out.calls.map Prod.snd, out.logs)

/-- Runs a sequence of host-application calls, accumulating the sink trace and
the logs. -/
def runOps (beh : SinkBehavior) (env : Env) : List Op → MPState →
    MPState × List SinkCall × List String
  | [], s => (s, [], [])
  | op :: rest, s =>
    let r1 := runOp beh env op s
    let r2 := runOps beh env rest r1.1
    (r2.1, r1.2.1 ++ r2.2.1, r1.2.2 ++ r2.2.2)

/-- A `trackEvent` call description: the clock reading and the arguments. -/
structure TrackIn where
  now : String
  name : EventName
  payload : Payload
  callback : Bool
deriving DecidableEq, Repr

/-- The façade ops for a list of `trackEvent` call descriptions. -/
def trackOpsOf (ins : List TrackIn) : List Op :=
  ins.map (fun i => Op.track i.now i.name i.payload i.callback)

/-- The queue entry a pre-initialization `trackEvent` call produces. -/
def enrichedQueued (i : TrackIn) : QueuedEvent :=
  ⟨eventNameStr i.name, enrich i.name i.now i.payload⟩

/-- The sink `track` call a queued event is delivered as. -/
def mkTrack (ev : QueuedEvent) : SinkCall := .track ev.name ev.props

/-- The sink `track` call a `trackEvent` call description is delivered as. -/
def enrichedTrackOf (i : TrackIn) : SinkCall := mkTrack (enrichedQueued i)

/-- Recognizes a `trackEvent` façade op. -/
def isTrackOp : Op → Bool
  | .track _ _ _ _ => true
  | _ => false

/-- Replaces the `debug` argument of `initMixpanel` calls in an op sequence,
leaving every other call untouched. -/
def setDebugArg (d : Bool) : Op → Op
  | .initMP token _ => .initMP token d
  | op => op

/-- A sink on which no operation ever fails. -/
def behNone : SinkBehavior :=
  ⟨fun _ => false, fun _ => false, fun _ _ => false, fun _ => false, fun _ => false, false⟩

/-- A sink on which every operation fails. -/
def behAllFail : SinkBehavior :=
  ⟨fun _ => true, fun _ => true, fun _ _ => true, fun _ => true, fun _ => true, true⟩

/-- A sink whose `initialize` always fails but whose other operations succeed. -/
def behInitFail : SinkBehavior :=
  ⟨fun _ => true, fun _ => false, fun _ _ => false, fun _ => false, fun _ => false, false⟩

/-! ## Lemmas about payload objects -/

theorem getField_cons_of_eq (kv : String × Value) (rest : Payload) (k : String)
    (h : kv.1 = k) : getField (kv :: rest) k = some kv.2 := by
  unfold getField
  rw [List.find?_cons_of_pos _ (by simpa using h)]
  rfl

theorem getField_cons_of_ne (kv : String × Value) (rest : Payload) (k : String)
    (h : kv.1 ≠ k) : getField (kv :: rest) k = getField rest k := by
  unfold getField
  rw [List.find?_cons_of_neg _ (by simpa using h)]

theorem setField_cons_of_eq (kv : String × Value) (rest : Payload) (k : String)
    (v : Value) (h : kv.1 = k) : setField (kv :: rest) k v = setField rest k v := by
  simp [setField, h]

theorem setField_cons_of_ne (kv : String × Value) (rest : Payload) (k : String)
    (v : Value) (h : kv.1 ≠ k) : setField (kv :: rest) k v = kv :: setField rest k v := by
  simp [setField, h]

theorem getField_setField_self (p : Payload) (k : String) (v : Value) :
    getField (setField p k v) k = some v := by
  induction p with
  | nil => simp [getField, setField]
  | cons kv rest ih =>
    by_cases h : kv.1 = k
    · rw [setField_cons_of_eq kv rest k v h, ih]
    · rw [setField_cons_of_ne kv rest k v h, getField_cons_of_ne kv _ k h, ih]

theorem getField_setField_ne (p : Payload) (k k' : String) (v : Value)
    (h : k' ≠ k) : getField (setField p k v) k' = getField p k' := by
  induction p with
  | nil =>
    simp [getField, setField, Ne.symm h]
  | cons kv rest ih =>
    by_cases hk : kv.1 = k
    · have hk' : kv.1 ≠ k' := by rw [hk]; exact Ne.symm h
      rw [setField_cons_of_eq kv rest k v hk, ih, getField_cons_of_ne kv rest k' hk']
    · rw [setField_cons_of_ne kv rest k v hk]
      by_cases hkv : kv.1 = k'
      · rw [getField_cons_of_eq kv _ k' hkv, getField_cons_of_eq kv rest k' hkv]
      · rw [getField_cons_of_ne kv _ k' hkv, ih, getField_cons_of_ne kv rest k' hkv]

/-! ## Lemmas about the drain loop -/

theorem flushLoop_calls (beh : SinkBehavior) (q : List QueuedEvent) :
    (flushLoop beh q).1 = q.map mkTrack := by
  induction q with
  | nil => rfl
  | cons ev rest ih => simp [flushLoop, mkTrack, ih]

theorem flushLoop_logs (beh : SinkBehavior) (q : List QueuedEvent) :
    (flushLoop beh q).2 =
      (q.filter (fun ev => beh.trackFails ev.name ev.props)).map
        (fun ev => "Failed to flush event " ++ ev.name) := by
  induction q with
  | nil => rfl
  | cons ev rest ih =>
    by_cases h : beh.trackFails ev.name ev.props <;> simp [flushLoop, h, ih]

/-- Full description of `flushEventQueue` on an initialized state: the queue is
emptied, every queued entry is forwarded as a `track` call in order, and the
failures are logged. -/
theorem flush_spec (beh : SinkBehavior) (s : MPState) (h : s.initialized = true) :
    flushEventQueue beh s =
      ({ s with queue := [] }, s.queue.map mkTrack,
        (if s.queue.isEmpty then []
          else if s.debugMode
            then ["Flushing " ++ toString s.queue.length ++ " backed up events"]
            else []) ++
        (s.queue.filter (fun ev => beh.trackFails ev.name ev.props)).map
          (fun ev => "Failed to flush event " ++ ev.name)) := by
  by_cases he : s.queue.isEmpty
  · have hq : s.queue = [] := by simpa using he
    cases s
    simp_all [flushEventQueue]
  · simp [flushEventQueue, h, he, flushLoop_calls, flushLoop_logs]

/-- `flushEventQueue` is the identity and issues no calls on a state whose
queue is empty. -/
theorem flush_empty (beh : SinkBehavior) (s : MPState) (h : s.queue = []) :
    flushEventQueue beh s = (s, [], []) := by
  simp [flushEventQueue, h]

/-! ## Claim theorems: drain (C3, C8) and enrichment (C9) -/

/-- Claim C3: no queued event is ever delivered to the sink twice.  On an
initialized state, `flushEventQueue` empties the queue and forwards each entry
exactly once (the trace is the pointwise image of the queue), and a second
invocation of `flushEventQueue` issues no sink calls and changes nothing. -/
theorem C3_no_double_delivery (beh : SinkBehavior) (s : MPState)
    (h : s.initialized = true) :
    (flushEventQueue beh s).1.queue = [] ∧
    (flushEventQueue beh s).2.1 = s.queue.map mkTrack ∧
    (flushEventQueue beh (flushEventQueue beh s).1).2.1 = [] ∧
    (flushEventQueue beh (flushEventQueue beh s).1).1 = (flushEventQueue beh s).1 := by
  have h2 : flushEventQueue beh ({ s with queue := [] } : MPState) =
      ({ s with queue := [] }, [], []) := flush_empty beh _ rfl
  rw [flush_spec beh s h]
  refine ⟨rfl, rfl, ?_, ?_⟩
  · show (flushEventQueue beh { s with queue := [] }).2.1 = []
    rw [h2]
  · show (flushEventQueue beh { s with queue := [] }).1 = { s with queue := [] }
    rw [h2]

theorem C3_witness :
    (MPState.mk true true [⟨"FeedbackSubmitted", [("feedback_text", .str "x")]⟩,
      ⟨"SessionEnded", []⟩]).initialized = true ∧
    ((flushEventQueue behAllFail (MPState.mk true true
        [⟨"FeedbackSubmitted", [("feedback_text", .str "x")]⟩, ⟨"SessionEnded", []⟩])).1.queue = [] ∧
      (flushEventQueue behAllFail (MPState.mk true true
        [⟨"FeedbackSubmitted", [("feedback_text", .str "x")]⟩, ⟨"SessionEnded", []⟩])).2.1 =
        (MPState.mk true true [⟨"FeedbackSubmitted", [("feedback_text", .str "x")]⟩,
          ⟨"SessionEnded", []⟩]).queue.map mkTrack ∧
      (flushEventQueue behAllFail (flushEventQueue behAllFail (MPState.mk true true
        [⟨"FeedbackSubmitted", [("feedback_text", .str "x")]⟩, ⟨"SessionEnded", []⟩])).1).2.1 = [] ∧
      (flushEventQueue behAllFail (flushEventQueue behAllFail (MPState.mk true true
        [⟨"FeedbackSubmitted", [("feedback_text", .str "x")]⟩, ⟨"SessionEnded", []⟩])).1).1 =
        (flushEventQueue behAllFail (MPState.mk true true
          [⟨"FeedbackSubmitted", [("feedback_text", .str "x")]⟩, ⟨"SessionEnded", []⟩])).1) :=
  ⟨by decide, C3_no_double_delivery behAllFail _ (by decide)⟩

/-- Claim C8: during drain a failing delivery is logged and lost but never
blocks the rest: on an initialized state `flushEventQueue` offers every queued
entry to the sink's `track` (in order, regardless of which deliveries the sink
fails), runs until the queue is empty, and logs one line per failed entry. -/
theorem C8_drain_resilient (beh : SinkBehavior) (s : MPState)
    (h : s.initialized = true) :
    (flushEventQueue beh s).2.1 = s.queue.map mkTrack ∧
    (flushEventQueue beh s).1.queue = [] ∧
    (flushEventQueue beh s).2.2 =
      (if s.queue.isEmpty then []
        else if s.debugMode
          then ["Flushing " ++ toString s.queue.length ++ " backed up events"]
          else []) ++
      (s.queue.filter (fun ev => beh.trackFails ev.name ev.props)).map
        (fun ev => "Failed to flush event " ++ ev.name) := by
  rw [flush_spec beh s h]
  exact ⟨rfl, rfl, rfl⟩

theorem C8_witness :
    (MPState.mk false true [⟨"SessionStarted", []⟩, ⟨"AIInteracted", []⟩]).initialized = true ∧
    ((flushEventQueue behAllFail (MPState.mk false true
        [⟨"SessionStarted", []⟩, ⟨"AIInteracted", []⟩])).2.1 =
      (MPState.mk false true [⟨"SessionStarted", []⟩, ⟨"AIInteracted", []⟩]).queue.map mkTrack ∧
      (flushEventQueue behAllFail (MPState.mk false true
        [⟨"SessionStarted", []⟩, ⟨"AIInteracted", []⟩])).1.queue = [] ∧
      (flushEventQueue behAllFail (MPState.mk false true
        [⟨"SessionStarted", []⟩, ⟨"AIInteracted", []⟩])).2.2 =
        (if (MPState.mk false true [⟨"SessionStarted", []⟩, ⟨"AIInteracted", []⟩]).queue.isEmpty
          then []
          else if (MPState.mk false true
              [⟨"SessionStarted", []⟩, ⟨"AIInteracted", []⟩]).debugMode
            then ["Flushing " ++ toString (MPState.mk false true
              [⟨"SessionStarted", []⟩, ⟨"AIInteracted", []⟩]).queue.length ++ " backed up events"]
            else []) ++
        ((MPState.mk false true [⟨"SessionStarted", []⟩, ⟨"AIInteracted", []⟩]).queue.filter
          (fun ev => behAllFail.trackFails ev.name ev.props)).map
          (fun ev => "Failed to flush event " ++ ev.name)) :=
  ⟨by decide, C8_drain_resilient behAllFail _ (by decide)⟩

/-- Claim C9: enrichment preserves every caller field except two:
`event_category` is always overwritten with the catalog category of the event
kind, and `timestamp` is replaced with the call-time string exactly when the
caller's `timestamp` field is absent or falsy (JavaScript `||`), the empty
string included. -/
theorem C9_enrichment_frame (eventName : EventName) (now : String) (payload : Payload) :
    (∀ k, k ≠ "event_category" → k ≠ "timestamp" →
      getField (enrich eventName now payload) k = getField payload k) ∧
    getField (enrich eventName now payload) "event_category" =
      some (.str (EVENT_CATEGORIES eventName).val) ∧
    getField (enrich eventName now payload) "timestamp" =
      some (match getField payload "timestamp" with
        | some v => if truthy v then v else .str now
        | none => .str now) := by
  unfold enrich
  refine ⟨fun k hk1 hk2 => ?_, ?_, ?_⟩
  · rw [getField_setField_ne _ _ _ _ hk2, getField_setField_ne _ _ _ _ hk1]
  · rw [getField_setField_ne _ _ _ _ (by decide), getField_setField_self]
  · rw [getField_setField_self]

/-! ## Lemmas: the façade never throws -/

theorem trackEventTry_cbRuns (beh : SinkBehavior) (now : String) (e : EventName)
    (p : Payload) (cb : Bool) (s : MPState) (r : CallOut)
    (h : trackEventTry beh now e p cb s = .ok r) : r.cbRuns = callbackRuns cb := by
  unfold trackEventTry at h
  dsimp only at h
  split at h <;> split at h <;> try split at h
  all_goals first
    | (injection h with h2; subst h2; rfl)
    | injection h

theorem trackEvent_ok (beh : SinkBehavior) (now : String) (e : EventName)
    (p : Payload) (cb : Bool) (s : MPState) :
    ∃ r : CallOut, trackEvent beh now e p cb s = .ok r ∧ r.cbRuns = callbackRuns cb := by
  unfold trackEvent
  cases h : trackEventTry beh now e p cb s with
  | ok r => exact ⟨r, rfl, trackEventTry_cbRuns beh now e p cb s r h⟩
  | error e' => exact ⟨_, rfl, rfl⟩

theorem trackEvent_exists_ok (beh : SinkBehavior) (now : String) (e : EventName)
    (p : Payload) (cb : Bool) (s : MPState) :
    ∃ r : CallOut, trackEvent beh now e p cb s = .ok r := by
  obtain ⟨r, hr, _⟩ := trackEvent_ok beh now e p cb s
  exact ⟨r, hr⟩

theorem identifyUser_ok (beh : SinkBehavior) (uid : String) (props : Option Payload)
    (s : MPState) : ∃ r : CallOut, identifyUser beh uid props s = .ok r := by
  unfold identifyUser
  cases h : identifyUserTry beh uid props s <;> exact ⟨_, rfl⟩

theorem resetUser_ok (beh : SinkBehavior) (s : MPState) :
    ∃ r : CallOut, resetUser beh s = .ok r := by
  unfold resetUser
  cases h : resetUserTry beh s <;> exact ⟨_, rfl⟩

/-- Claim C6: every public façade operation is non-throwing — for every input
and every sink behavior (including one on which every sink operation throws)
the call returns normally — and `trackEvent` runs a supplied callback exactly
once on every path (queued, dropped, sent, or send failed). -/
theorem C6_facade_nonthrowing :
    (∀ beh now e p cb s, ∃ r : CallOut,
      trackEvent beh now e p cb s = .ok r ∧ r.cbRuns = callbackRuns cb) ∧
    (∀ beh uid props s, ∃ r : CallOut, identifyUser beh uid props s = .ok r) ∧
    (∀ beh s, ∃ r : CallOut, resetUser beh s = .ok r) ∧
    (∀ beh env now ut s, ∃ r : CallOut,
      SessionEvents.trackSessionStart beh env now ut s = .ok r) ∧
    (∀ beh now a b c s, ∃ r : CallOut,
      SessionEvents.trackSessionEnd beh now a b c s = .ok r) ∧
    (∀ beh now dt s, ∃ r : CallOut,
      DecisionEvents.trackDiscussionStart beh now dt s = .ok r) ∧
    (∀ beh now dt a b w s, ∃ r : CallOut,
      DecisionEvents.trackDecisionComplete beh now dt a b w s = .ok r) ∧
    (∀ beh now fs s, ∃ r : CallOut,
      DecisionEvents.trackSummaryView beh now fs s = .ok r) ∧
    (∀ beh now d cs s, ∃ r : CallOut,
      DecisionEvents.trackAbandonedDiscussion beh now d cs s = .ok r) ∧
    (∀ beh now m a rt s, ∃ r : CallOut,
      AIEvents.trackAIInteraction beh now m a rt s = .ok r) ∧
    (∀ beh now m pos s, ∃ r : CallOut,
      AIEvents.trackClickedResponse beh now m pos s = .ok r) ∧
    (∀ beh now ms et s, ∃ r : CallOut,
      AIEvents.trackProsAndConsGenerated beh now ms et s = .ok r) ∧
    (∀ beh now s, ∃ r : CallOut,
      FeedbackEvents.trackFeedbackButtonClicked beh now s = .ok r) ∧
    (∀ beh now ft s, ∃ r : CallOut,
      FeedbackEvents.trackFeedbackSubmission beh now ft s = .ok r) := by
  refine ⟨trackEvent_ok, identifyUser_ok, resetUser_ok, ?_, ?_, ?_, ?_, ?_, ?_, ?_, ?_,
    ?_, ?_, ?_⟩ <;>
    intros <;>
    apply trackEvent_exists_ok

/-! ## Lemmas about the runner and the backlog queue -/

theorem runOps_append (beh : SinkBehavior) (env : Env) (a b : List Op) (s : MPState) :
    runOps beh env (a ++ b) s =
      ((runOps beh env b (runOps beh env a s).1).1,
        (runOps beh env a s).2.1 ++ (runOps beh env b (runOps beh env a s).1).2.1,
        (runOps beh env a s).2.2 ++ (runOps beh env b (runOps beh env a s).1).2.2) := by
  induction a generalizing s with
  | nil => simp [runOps]
  | cons op rest ih => simp [runOps, ih]

theorem runOp_track_notinit_push (beh : SinkBehavior) (env : Env) (now : String)
    (e : EventName) (p : Payload) (cb : Bool) (s : MPState)
    (hs : s.initialized = false) (hlen : s.queue.length < MAX_QUEUE_SIZE) :
    (runOp beh env (Op.track now e p cb) s).1 =
      { s with queue := s.queue ++ [⟨eventNameStr e, enrich e now p⟩] } ∧
    (runOp beh env (Op.track now e p cb) s).2.1 = [] := by
  simp [runOp, trackEvent, trackEventTry, hs, hlen]

theorem runOp_track_notinit_drop (beh : SinkBehavior) (env : Env) (now : String)
    (e : EventName) (p : Payload) (cb : Bool) (s : MPState)
    (hs : s.initialized = false) (hlen : ¬ s.queue.length < MAX_QUEUE_SIZE) :
    (runOp beh env (Op.track now e p cb) s).1 = s ∧
    (runOp beh env (Op.track now e p cb) s).2.1 = [] := by
  simp [runOp, trackEvent, trackEventTry, hs, hlen]

/-- Folding a list of pre-initialization `trackEvent` calls: the state stays
uninitialized, no sink call is issued, and the queue receives exactly the
enriched events in call order, truncated at the remaining capacity. -/
theorem runOps_tracks_queue (beh : SinkBehavior) (env : Env) (ins : List TrackIn) :
    ∀ s : MPState, s.initialized = false →
      (runOps beh env (trackOpsOf ins) s).1.initialized = false ∧
      (runOps beh env (trackOpsOf ins) s).1.debugMode = s.debugMode ∧
      (runOps beh env (trackOpsOf ins) s).1.queue =
        s.queue ++ (ins.map enrichedQueued).take (MAX_QUEUE_SIZE - s.queue.length) ∧
      (runOps beh env (trackOpsOf ins) s).2.1 = [] := by
  induction ins with
  | nil => intro s hs; simp [trackOpsOf, runOps, hs]
  | cons i rest ih =>
    intro s hs
    have hcons : trackOpsOf (i :: rest) =
        Op.track i.now i.name i.payload i.callback :: trackOpsOf rest := rfl
    rw [hcons]
    by_cases hlen : s.queue.length < MAX_QUEUE_SIZE
    · obtain ⟨hst, hcalls⟩ := runOp_track_notinit_push beh env i.now i.name i.payload
        i.callback s hs hlen
      have hs' : ({ s with queue := s.queue ++ [⟨eventNameStr i.name,
          enrich i.name i.now i.payload⟩] } : MPState).initialized = false := hs
      obtain ⟨ih1, ih2, ih3, ih4⟩ := ih _ hs'
      have hcap : MAX_QUEUE_SIZE - s.queue.length =
          (MAX_QUEUE_SIZE - (s.queue.length + 1)) + 1 := by
        simp only [MAX_QUEUE_SIZE] at *
        omega
      refine ⟨?_, ?_, ?_, ?_⟩
      · simpa [runOps, hst] using ih1
      · simpa [runOps, hst] using ih2
      · show (runOps beh env (trackOpsOf rest) (runOp beh env
            (Op.track i.now i.name i.payload i.callback) s).1).1.queue = _
        rw [hst, ih3]
        simp only [MPState.queue]
        rw [hcap, List.map_cons, List.take_succ_cons, List.length_append]
        simp [enrichedQueued, List.append_assoc]
      · simp [runOps, hcalls, hst, ih4]
    · obtain ⟨hst, hcalls⟩ := runOp_track_notinit_drop beh env i.now i.name i.payload
        i.callback s hs hlen
      obtain ⟨ih1, ih2, ih3, ih4⟩ := ih _ (hst ▸ hs)
      have hcap : MAX_QUEUE_SIZE - s.queue.length = 0 := by
        simp only [MAX_QUEUE_SIZE] at *
        omega
      refine ⟨?_, ?_, ?_, ?_⟩
      · simpa [runOps, hst] using ih1
      · simpa [runOps, hst] using ih2
      · show (runOps beh env (trackOpsOf rest) (runOp beh env
            (Op.track i.now i.name i.payload i.callback) s).1).1.queue = _
        rw [ih3, hst, hcap]
        simp
      · simp [runOps, hcalls, ih4]

theorem filter_isTrackCall_map_mkTrack (q : List QueuedEvent) :
    List.filter isTrackCall (q.map mkTrack) = q.map mkTrack := by
  induction q with
  | nil => rfl
  | cons ev rest ih => simp [mkTrack, isTrackCall, List.filter_cons, ih]

theorem map_snd_timetag (t : Nat) (cs : List SinkCall) :
    (cs.map (fun c => (t, c))).map Prod.snd = cs := by
  induction cs with
  | nil => rfl
  | cons c rest ih => simp [ih]

theorem initMixpanel_success_state (beh : SinkBehavior) (env : Env) (token : String)
    (debug : Bool) (s : MPState)
    (h0 : beh.initFails 0 = false) (h1 : beh.registerFails 0 = false) :
    (initMixpanel beh env token debug s).state =
      (flushEventQueue beh { s with debugMode := debug, initialized := true }).1 := by
  unfold initMixpanel initLoop
  simp [h0, h1]

theorem initMixpanel_success_calls (beh : SinkBehavior) (env : Env) (token : String)
    (debug : Bool) (s : MPState)
    (h0 : beh.initFails 0 = false) (h1 : beh.registerFails 0 = false) :
    (initMixpanel beh env token debug s).calls =
      (0, SinkCall.init token (mkConfig debug)) ::
      (0, SinkCall.register (registerProps env)) ::
      (flushEventQueue beh { s with debugMode := debug, initialized := true }).2.1.map
        (fun c => (0, c)) := by
  unfold initMixpanel initLoop
  simp [h0, h1]

/-- On a successful first attempt the `track` calls an initialization issues
are exactly the queued entries, delivered in queue order. -/
theorem init_trace_of_queue (beh : SinkBehavior) (env : Env) (token : String)
    (debug : Bool) (s : MPState)
    (h0 : beh.initFails 0 = false) (h1 : beh.registerFails 0 = false) :
    trackCalls ((initMixpanel beh env token debug s).calls.map Prod.snd) =
      s.queue.map mkTrack := by
  rw [initMixpanel_success_calls beh env token debug s h0 h1]
  have hfl : (flushEventQueue beh
      { s with debugMode := debug, initialized := true }).2.1 = s.queue.map mkTrack := by
    rw [flush_spec beh _ rfl]
  simp only [List.map_cons, map_snd_timetag, hfl]
  simp [trackCalls, isTrackCall, List.filter_cons, filter_isTrackCall_map_mkTrack]

/-! ## Lemmas about the initialization controller -/

/-- When every initialization attempt throws, `initMixpanel` issues exactly
four `mixpanel.init` calls — the initial attempt plus `MAX_RETRIES` retries —
at virtual times 0, 2000, 6000 and 14000 ms, and leaves the state untouched
except for the debug flag. -/
theorem initMixpanel_allfail (beh : SinkBehavior) (env : Env) (token : String)
    (debug : Bool) (s : MPState) (hf : ∀ n, beh.initFails n = true) :
    (initMixpanel beh env token debug s).state = { s with debugMode := debug } ∧
    (initMixpanel beh env token debug s).calls =
      [(0, SinkCall.init token (mkConfig debug)),
        (2000, SinkCall.init token (mkConfig debug)),
        (6000, SinkCall.init token (mkConfig debug)),
        (14000, SinkCall.init token (mkConfig debug))] := by
  constructor <;> simp [initMixpanel, initLoop, hf]

/-- A run of `trackEvent`-only calls on an uninitialized state issues no sink
call, keeps the state uninitialized, and keeps the queue within capacity. -/
theorem runOps_tracks_no_calls (beh : SinkBehavior) (env : Env) (ops : List Op) :
    ∀ s : MPState, s.initialized = false → s.queue.length ≤ MAX_QUEUE_SIZE →
      (∀ op ∈ ops, isTrackOp op = true) →
      (runOps beh env ops s).2.1 = [] ∧
      (runOps beh env ops s).1.initialized = false ∧
      (runOps beh env ops s).1.queue.length ≤ MAX_QUEUE_SIZE := by
  induction ops with
  | nil =>
    intro s hs hq hops
    exact ⟨rfl, hs, hq⟩
  | cons op rest ih =>
    intro s hs hq hops
    have hop : isTrackOp op = true := hops op (List.mem_cons_self op rest)
    have hrest : ∀ o ∈ rest, isTrackOp o = true :=
      fun o ho => hops o (List.mem_cons_of_mem op ho)
    cases op with
    | track now e p cb =>
      by_cases hlen : s.queue.length < MAX_QUEUE_SIZE
      · obtain ⟨hst, hcalls⟩ := runOp_track_notinit_push beh env now e p cb s hs hlen
        have hq' : ({ s with queue := s.queue ++ [⟨eventNameStr e, enrich e now p⟩] } :
            MPState).queue.length ≤ MAX_QUEUE_SIZE := by
          simp only [MPState.queue, List.length_append, List.length_cons,
            List.length_nil]
          simp only [MAX_QUEUE_SIZE] at *
          omega
        obtain ⟨ih1, ih2, ih3⟩ := ih
          ({ s with queue := s.queue ++ [⟨eventNameStr e, enrich e now p⟩] }) hs hq' hrest
        refine ⟨?_, ?_, ?_⟩
        · simp [runOps, hcalls, hst, ih1]
        · simpa [runOps, hst] using ih2
        · simpa [runOps, hst] using ih3
      · obtain ⟨hst, hcalls⟩ := runOp_track_notinit_drop beh env now e p cb s hs hlen
        obtain ⟨ih1, ih2, ih3⟩ := ih s hs hq hrest
        refine ⟨?_, ?_, ?_⟩
        · simp [runOps, hcalls, hst, ih1]
        · simpa [runOps, hst] using ih2
        · simpa [runOps, hst] using ih3
    | identify uid props => simp [isTrackOp] at hop
    | reset => simp [isTrackOp] at hop
    | initMP token debug => simp [isTrackOp] at hop

theorem initTimePick_track (t : Nat) (q : List QueuedEvent) :
    ((q.map mkTrack).map (fun c => (t, c))).filterMap initTimePick = [] := by
  induction q with
  | nil => rfl
  | cons ev rest ih =>
    simp [mkTrack, initTimePick, ih]

/-- Helper for the retry-spacing induction: prepending the current attempt time
to a tail whose first attempt runs one backoff step later. -/
theorem times_cons_spacing (retries t : Nat) (ts : List Nat)
    (hhead : ts.get? 0 = some (t + 1000 * 2 ^ (retries + 1)))
    (hspace : ∀ i a b, ts.get? i = some a → ts.get? (i+1) = some b →
      b = a + 1000 * 2 ^ (retries + 1 + i + 1)) :
    (t :: ts).get? 0 = some t ∧
    (∀ i a b, (t :: ts).get? i = some a → (t :: ts).get? (i+1) = some b →
      b = a + 1000 * 2 ^ (retries + i + 1)) := by
  refine ⟨rfl, ?_⟩
  intro i a b hA hB
  cases i with
  | zero =>
    have ha : a = t := by simpa using hA.symm
    have hB' : ts.get? 0 = some b := by simpa using hB
    have hb : b = t + 1000 * 2 ^ (retries + 1) := by
      rw [hB'] at hhead
      exact Option.some.inj hhead
    rw [ha, hb]
  | succ j =>
    have hA' : ts.get? j = some a := by simpa using hA
    have hB' : ts.get? (j+1) = some b := by simpa using hB
    have hx := hspace j a b hA' hB'
    have hexp : retries + 1 + j + 1 = retries + (j + 1) + 1 := by omega
    rw [hexp] at hx
    exact hx

/-- Attempt-time structure of the retry loop: the first attempt of
`initLoop` runs at time `t`, and whenever attempts `i` and `i+1` both occur,
attempt `i+1` runs exactly `1000 * 2 ^ (retries + i + 1)` ms later — the
backoff computed after the counter increment. -/
theorem initLoop_times (beh : SinkBehavior) (env : Env) (token : String) :
    ∀ (retriesLeft retries t : Nat) (s : MPState),
      (initTimesOf (initLoop beh env token t retries retriesLeft s)).get? 0 = some t ∧
      (∀ i a b,
        (initTimesOf (initLoop beh env token t retries retriesLeft s)).get? i = some a →
        (initTimesOf (initLoop beh env token t retries retriesLeft s)).get? (i+1) =
          some b →
        b = a + 1000 * 2 ^ (retries + i + 1)) := by
  intro retriesLeft
  induction retriesLeft with
  | zero =>
    intro retries t s
    have hfl : (flushEventQueue beh { s with initialized := true }).2.1 =
        s.queue.map mkTrack := by
      rw [flush_spec beh _ rfl]
    have htimes : initTimesOf (initLoop beh env token t retries 0 s) = [t] := by
      by_cases h0 : beh.initFails retries
      · simp [initLoop, initTimesOf, initTimePick, h0]
      · by_cases h1 : beh.registerFails retries
        · simp [initLoop, initTimesOf, initTimePick, h0, h1]
        · simp [initLoop, initTimesOf, initTimePick, h0, h1, hfl, initTimePick_track]
          intro a _
          rfl
    rw [htimes]
    refine ⟨rfl, ?_⟩
    intro i a b h1 h2
    simp at h2
  | succ r ih =>
    intro retries t s
    have hfl : (flushEventQueue beh { s with initialized := true }).2.1 =
        s.queue.map mkTrack := by
      rw [flush_spec beh _ rfl]
    by_cases h0 : beh.initFails retries
    · have hrec := ih (retries + 1) (t + 1000 * 2 ^ (retries + 1)) s
      have htimes : initTimesOf (initLoop beh env token t retries (r+1) s) =
          t :: initTimesOf (initLoop beh env token
            (t + 1000 * 2 ^ (retries + 1)) (retries + 1) r s) := by
        simp [initLoop, initTimesOf, initTimePick, h0]
      rw [htimes]
      exact times_cons_spacing retries t _ hrec.1 hrec.2
    · by_cases h1 : beh.registerFails retries
      · have hrec := ih (retries + 1) (t + 1000 * 2 ^ (retries + 1)) s
        have htimes : initTimesOf (initLoop beh env token t retries (r+1) s) =
            t :: initTimesOf (initLoop beh env token
              (t + 1000 * 2 ^ (retries + 1)) (retries + 1) r s) := by
          simp [initLoop, initTimesOf, initTimePick, h0, h1]
        rw [htimes]
        exact times_cons_spacing retries t _ hrec.1 hrec.2
      · have htimes : initTimesOf (initLoop beh env token t retries (r+1) s) = [t] := by
          simp [initLoop, initTimesOf, initTimePick, h0, h1, hfl, initTimePick_track]
          intro a _
          rfl
        rw [htimes]
        refine ⟨rfl, ?_⟩
        intro i a b h1 h2
        simp at h2

/-! ## Lemmas: the debug flag does not interfere with tracking -/

theorem filter_isDataCall_map_mkTrack (q : List QueuedEvent) :
    List.filter isDataCall (q.map mkTrack) = q.map mkTrack := by
  induction q with
  | nil => rfl
  | cons ev rest ih => simp [mkTrack, isDataCall, List.filter_cons, ih]

/-- The retry loop started on two states that agree on everything but the
debug flag produces the same readiness flag, the same queue, and the same
data-bearing sink calls. -/
theorem initLoop_debug_indep (beh : SinkBehavior) (env : Env) (token : String) :
    ∀ (retriesLeft retries t : Nat) (s1 s2 : MPState),
      s1.initialized = s2.initialized → s1.queue = s2.queue →
      (initLoop beh env token t retries retriesLeft s1).state.initialized =
        (initLoop beh env token t retries retriesLeft s2).state.initialized ∧
      (initLoop beh env token t retries retriesLeft s1).state.queue =
        (initLoop beh env token t retries retriesLeft s2).state.queue ∧
      dataCalls ((initLoop beh env token t retries retriesLeft s1).calls.map Prod.snd) =
        dataCalls ((initLoop beh env token t retries retriesLeft s2).calls.map
          Prod.snd) := by
  intro retriesLeft
  induction retriesLeft with
  | zero =>
    intro retries t s1 s2 hinit hq
    by_cases h0 : beh.initFails retries = true
    · simp [initLoop, h0, dataCalls, isDataCall, hinit, hq]
    · by_cases h1 : beh.registerFails retries = true
      · simp [initLoop, h0, h1, dataCalls, isDataCall, hinit, hq]
      · have hfl : ∀ (d : Bool) (q : List QueuedEvent),
            flushEventQueue beh ⟨d, true, q⟩ =
              (⟨d, true, []⟩, q.map mkTrack,
                (if q.isEmpty then []
                  else if d = true
                    then ["Flushing " ++ toString q.length ++ " backed up events"]
                    else []) ++
                (q.filter (fun ev => beh.trackFails ev.name ev.props)).map
                  (fun ev => "Failed to flush event " ++ ev.name)) :=
          fun d q => flush_spec beh ⟨d, true, q⟩ rfl
        simp [initLoop, h0, h1, hfl, dataCalls, isDataCall, hq, Function.comp,
          map_snd_timetag, filter_isDataCall_map_mkTrack]
  | succ r ih =>
    intro retries t s1 s2 hinit hq
    by_cases h0 : beh.initFails retries = true
    · obtain ⟨e1, e2, e3⟩ := ih (retries + 1) (t + 1000 * 2 ^ (retries + 1)) s1 s2
        hinit hq
      simp only [dataCalls] at e3
      simp [initLoop, h0, dataCalls, isDataCall, e1, e2, e3]
    · by_cases h1 : beh.registerFails retries = true
      · obtain ⟨e1, e2, e3⟩ := ih (retries + 1) (t + 1000 * 2 ^ (retries + 1)) s1 s2
          hinit hq
        simp only [dataCalls] at e3
        simp [initLoop, h0, h1, dataCalls, isDataCall, e1, e2, e3]
      · have hfl : ∀ (d : Bool) (q : List QueuedEvent),
            flushEventQueue beh ⟨d, true, q⟩ =
              (⟨d, true, []⟩, q.map mkTrack,
                (if q.isEmpty then []
                  else if d = true
                    then ["Flushing " ++ toString q.length ++ " backed up events"]
                    else []) ++
                (q.filter (fun ev => beh.trackFails ev.name ev.props)).map
                  (fun ev => "Failed to flush event " ++ ev.name)) :=
          fun d q => flush_spec beh ⟨d, true, q⟩ rfl
        simp [initLoop, h0, h1, hfl, dataCalls, isDataCall, hq, Function.comp,
          map_snd_timetag, filter_isDataCall_map_mkTrack]

/-- One façade call, run on two states agreeing on everything but the debug
flag and with only the `initMixpanel` debug argument changed, preserves the
agreement and issues the same data-bearing sink calls. -/
theorem runOp_debug_indep (beh : SinkBehavior) (env : Env) (d1 d2 : Bool) (op : Op) :
    ∀ s1 s2 : MPState, s1.initialized = s2.initialized → s1.queue = s2.queue →
      (runOp beh env (setDebugArg d1 op) s1).1.initialized =
        (runOp beh env (setDebugArg d2 op) s2).1.initialized ∧
      (runOp beh env (setDebugArg d1 op) s1).1.queue =
        (runOp beh env (setDebugArg d2 op) s2).1.queue ∧
      dataCalls (runOp beh env (setDebugArg d1 op) s1).2.1 =
        dataCalls (runOp beh env (setDebugArg d2 op) s2).2.1 := by
  cases op with
  | track now e p cb =>
    intro s1 s2 hinit hq
    simp only [setDebugArg]
    by_cases hi : s1.initialized = true
    · have hi2 : s2.initialized = true := hinit ▸ hi
      by_cases htf : beh.trackFails (eventNameStr e) (enrich e now p) = true
      · simp [runOp, trackEvent, trackEventTry, hi, hi2, htf, hinit, hq]
      · simp [runOp, trackEvent, trackEventTry, hi, hi2, htf, hinit, hq]
    · have hi1 : s1.initialized = false := by simpa using hi
      have hi2 : s2.initialized = false := hinit ▸ hi1
      by_cases hlen : s1.queue.length < MAX_QUEUE_SIZE
      · have hlen2 : s2.queue.length < MAX_QUEUE_SIZE := hq ▸ hlen
        simp [runOp, trackEvent, trackEventTry, hi1, hi2, hlen, hlen2, hinit, hq]
      · have hlen2 : ¬ s2.queue.length < MAX_QUEUE_SIZE := hq ▸ hlen
        simp [runOp, trackEvent, trackEventTry, hi1, hi2, hlen, hlen2, hinit, hq]
  | identify uid props =>
    intro s1 s2 hinit hq
    simp only [setDebugArg]
    by_cases hi : s1.initialized = true
    · have hi2 : s2.initialized = true := hinit ▸ hi
      cases props with
      | none =>
        by_cases hf : beh.identifyFails uid = true
        · simp [runOp, identifyUser, identifyUserTry, hi, hi2, hf, hinit, hq]
        · simp [runOp, identifyUser, identifyUserTry, hi, hi2, hf, hinit, hq]
      | some pr =>
        by_cases hf : beh.identifyFails uid = true
        · simp [runOp, identifyUser, identifyUserTry, hi, hi2, hf, hinit, hq]
        · by_cases hps : beh.peopleSetFails pr = true
          · simp [runOp, identifyUser, identifyUserTry, hi, hi2, hf, hps, hinit, hq]
          · simp [runOp, identifyUser, identifyUserTry, hi, hi2, hf, hps, hinit, hq]
    · have hi1 : s1.initialized = false := by simpa using hi
      have hi2 : s2.initialized = false := hinit ▸ hi1
      simp [runOp, identifyUser, identifyUserTry, hi1, hi2, hinit, hq]
  | reset =>
    intro s1 s2 hinit hq
    simp only [setDebugArg]
    by_cases hi : s1.initialized = true
    · have hi2 : s2.initialized = true := hinit ▸ hi
      by_cases hrf : beh.resetFails = true
      · simp [runOp, resetUser, resetUserTry, hi, hi2, hrf, hinit, hq]
      · simp [runOp, resetUser, resetUserTry, hi, hi2, hrf, hinit, hq]
    · have hi1 : s1.initialized = false := by simpa using hi
      have hi2 : s2.initialized = false := hinit ▸ hi1
      simp [runOp, resetUser, resetUserTry, hi1, hi2, hinit, hq]
  | initMP token d =>
    intro s1 s2 hinit hq
    simp only [setDebugArg]
    obtain ⟨e1, e2, e3⟩ := initLoop_debug_indep beh env token MAX_RETRIES 0 0
      { s1 with debugMode := d1 } { s2 with debugMode := d2 } hinit hq
    simp only [runOp, initMixpanel]
    exact ⟨e1, e2, e3⟩

/-- Running a whole call sequence under two debug settings: the queue, the
readiness flag and the data-bearing sink trace agree throughout. -/
theorem runOps_debug_indep (beh : SinkBehavior) (env : Env) (d1 d2 : Bool)
    (ops : List Op) :
    ∀ s1 s2 : MPState, s1.initialized = s2.initialized → s1.queue = s2.queue →
      (runOps beh env (ops.map (setDebugArg d1)) s1).1.initialized =
        (runOps beh env (ops.map (setDebugArg d2)) s2).1.initialized ∧
      (runOps beh env (ops.map (setDebugArg d1)) s1).1.queue =
        (runOps beh env (ops.map (setDebugArg d2)) s2).1.queue ∧
      dataCalls (runOps beh env (ops.map (setDebugArg d1)) s1).2.1 =
        dataCalls (runOps beh env (ops.map (setDebugArg d2)) s2).2.1 := by
  induction ops with
  | nil => intro s1 s2 hinit hq; exact ⟨hinit, hq, rfl⟩
  | cons op rest ih =>
    intro s1 s2 hinit hq
    obtain ⟨e1, e2, e3⟩ := runOp_debug_indep beh env d1 d2 op s1 s2 hinit hq
    obtain ⟨f1, f2, f3⟩ := ih (runOp beh env (setDebugArg d1 op) s1).1
      (runOp beh env (setDebugArg d2 op) s2).1 e1 e2
    refine ⟨?_, ?_, ?_⟩
    · simpa [runOps] using f1
    · simpa [runOps] using f2
    · simp only [List.map_cons, runOps]
      simp only [dataCalls, List.filter_append] at *
      rw [e3, f3]

/-- Claim C10: the debug flag does not interfere with tracking behavior.  Two
runs of the same call sequence that differ only in the `debug` argument of the
`initMixpanel` calls (and in the initial value of the debug flag) have, after
every prefix, the same queue contents, the same readiness flag, and the same
sequence of `track`, `identify`, `people.set` and `reset` calls to the sink;
debug mode changes only console logging and the debug option inside the sink's
init config. -/
theorem C10_debug_noninterference (beh : SinkBehavior) (env : Env) (ops : List Op)
    (d1 d2 b1 b2 : Bool) (n : Nat) :
    (runOps beh env ((ops.take n).map (setDebugArg d1))
        (MPState.mk b1 false [])).1.queue =
      (runOps beh env ((ops.take n).map (setDebugArg d2))
        (MPState.mk b2 false [])).1.queue ∧
    (runOps beh env ((ops.take n).map (setDebugArg d1))
        (MPState.mk b1 false [])).1.initialized =
      (runOps beh env ((ops.take n).map (setDebugArg d2))
        (MPState.mk b2 false [])).1.initialized ∧
    dataCalls (runOps beh env ((ops.take n).map (setDebugArg d1))
        (MPState.mk b1 false [])).2.1 =
      dataCalls (runOps beh env ((ops.take n).map (setDebugArg d2))
        (MPState.mk b2 false [])).2.1 := by
  obtain ⟨e1, e2, e3⟩ := runOps_debug_indep beh env d1 d2 (ops.take n)
    (MPState.mk b1 false []) (MPState.mk b2 false []) rfl rfl
  exact ⟨e2, e1, e3⟩

/-! ## Claim theorems: the initialization controller (C4, C5) -/

/-- Claim C4, counterexample: with a sink whose `initialize` always fails, the
number of initialization attempts `initMixpanel` issues is 4 (the initial call
plus `MAX_RETRIES = 3` retries), not 3 as the claim states. -/
theorem C4_counterexample :
    ((initMixpanel behInitFail ⟨false⟩ "token" false startState).calls.filter
      (fun tc => isInitCall tc.2)).length = 4 ∧
    ¬ ((initMixpanel behInitFail ⟨false⟩ "token" false startState).calls.filter
      (fun tc => isInitCall tc.2)).length = 3 := by
  decide

/-- Claim C4 (amended): if every call to the sink's `initialize` fails,
`initMixpanel` issues exactly 4 initialization attempts (initial + 3 retries)
and then permanently stops retrying; the flag stays down and the queue is
untouched, no `track` reaches the sink during initialization, and `trackEvent`
calls made after that point are queued up to capacity but never delivered. -/
theorem C4_retry_exhaustion (beh : SinkBehavior) (env : Env) (token : String)
    (debug : Bool) (s : MPState) (ops : List Op)
    (hf : ∀ n, beh.initFails n = true)
    (hs : s.initialized = false)
    (hq : s.queue.length ≤ MAX_QUEUE_SIZE)
    (hops : ∀ op ∈ ops, isTrackOp op = true) :
    ((initMixpanel beh env token debug s).calls.filter
      (fun tc => isInitCall tc.2)).length = 4 ∧
    (initMixpanel beh env token debug s).state.initialized = false ∧
    (initMixpanel beh env token debug s).state.queue = s.queue ∧
    trackCalls ((initMixpanel beh env token debug s).calls.map Prod.snd) = [] ∧
    (runOps beh env ops (initMixpanel beh env token debug s).state).2.1 = [] ∧
    (runOps beh env ops
      (initMixpanel beh env token debug s).state).1.queue.length ≤ MAX_QUEUE_SIZE := by
  obtain ⟨hstate, hcallseq⟩ := initMixpanel_allfail beh env token debug s hf
  have hsc : (initMixpanel beh env token debug s).state.initialized = false := by
    rw [hstate]; exact hs
  have hqc : (initMixpanel beh env token debug s).state.queue.length ≤
      MAX_QUEUE_SIZE := by
    rw [hstate]; exact hq
  obtain ⟨hc1, hc2, hc3⟩ := runOps_tracks_no_calls beh env ops _ hsc hqc hops
  refine ⟨?_, hsc, ?_, ?_, hc1, hc3⟩
  · rw [hcallseq]; simp [isInitCall]
  · rw [hstate]
  · rw [hcallseq]; simp [trackCalls, isTrackCall]

theorem C4_witness :
    ((∀ n, behInitFail.initFails n = true) ∧
      startState.initialized = false ∧
      startState.queue.length ≤ MAX_QUEUE_SIZE ∧
      (∀ op ∈ [Op.track "t" .SessionEnded [] false], isTrackOp op = true)) ∧
    (((initMixpanel behInitFail ⟨false⟩ "token" false startState).calls.filter
        (fun tc => isInitCall tc.2)).length = 4 ∧
      (initMixpanel behInitFail ⟨false⟩ "token" false startState).state.initialized =
        false ∧
      (initMixpanel behInitFail ⟨false⟩ "token" false startState).state.queue =
        startState.queue ∧
      trackCalls ((initMixpanel behInitFail ⟨false⟩ "token" false
        startState).calls.map Prod.snd) = [] ∧
      (runOps behInitFail ⟨false⟩ [Op.track "t" .SessionEnded [] false]
        (initMixpanel behInitFail ⟨false⟩ "token" false startState).state).2.1 = [] ∧
      (runOps behInitFail ⟨false⟩ [Op.track "t" .SessionEnded [] false]
        (initMixpanel behInitFail ⟨false⟩ "token" false
          startState).state).1.queue.length ≤ MAX_QUEUE_SIZE) :=
  ⟨⟨fun _ => rfl, rfl, by decide, by decide⟩,
    C4_retry_exhaustion behInitFail ⟨false⟩ "token" false startState
      [Op.track "t" .SessionEnded [] false] (fun _ => rfl) rfl (by decide) (by decide)⟩

/-- Claim C5, counterexample: after the first failed attempt (at virtual time
0) the first retry runs at 2000 ms, not after `1000 * 2 ^ 0 = 1000` ms as the
claim's pre-increment reading of the backoff formula states: the code
increments `retries` before computing `1000 * Math.pow(2, retries)`. -/
theorem C5_counterexample :
    (initTimesOf (initMixpanel behInitFail ⟨false⟩ "token" false startState)).get? 0 =
      some 0 ∧
    (initTimesOf (initMixpanel behInitFail ⟨false⟩ "token" false startState)).get? 1 =
      some 2000 ∧
    ¬ (2000 : Nat) = 0 + 1000 * 2 ^ (0 : Nat) := by
  decide

/-- Claim C5 (amended): when an initialization attempt fails and the retry
counter is below `MAX_RETRIES`, the retry counter is incremented first and the
retry is then scheduled after `1000 * 2 ^ new_count` ms — so consecutive
attempts `i` and `i+1` of `initMixpanel` are spaced exactly
`1000 * 2 ^ (i + 1)` ms apart (first retry 2000 ms after the first failure). -/
theorem C5_backoff (beh : SinkBehavior) (env : Env) (token : String)
    (debug : Bool) (s : MPState) (i a b : Nat)
    (h1 : (initTimesOf (initMixpanel beh env token debug s)).get? i = some a)
    (h2 : (initTimesOf (initMixpanel beh env token debug s)).get? (i+1) = some b) :
    b = a + 1000 * 2 ^ (i + 1) := by
  have hx := (initLoop_times beh env token MAX_RETRIES 0 0
    { s with debugMode := debug }).2 i a b h1 h2
  simpa using hx

theorem C5_witness :
    ((initTimesOf (initMixpanel behInitFail ⟨false⟩ "token" false startState)).get? 0 =
        some 0 ∧
      (initTimesOf (initMixpanel behInitFail ⟨false⟩ "token" false
        startState)).get? 1 = some 2000) ∧
    (2000 : Nat) = 0 + 1000 * 2 ^ (0 + 1) :=
  ⟨⟨by decide, by decide⟩,
    C5_backoff behInitFail ⟨false⟩ "token" false startState 0 0 2000
      (by decide) (by decide)⟩

/-- Claim C1: FIFO delivery.  For any sequence of at most `MAX_QUEUE_SIZE`
`trackEvent` calls issued before initialization, the drain performed after a
successful initialization delivers the enriched payloads to the sink's `track`
operation in exactly the call order. -/
theorem C1_fifo (beh : SinkBehavior) (env : Env) (token : String) (debug : Bool)
    (ins : List TrackIn) (hlen : ins.length ≤ MAX_QUEUE_SIZE)
    (h0 : beh.initFails 0 = false) (h1 : beh.registerFails 0 = false) :
    trackCalls (runOps beh env (trackOpsOf ins ++ [Op.initMP token debug])
        startState).2.1 = ins.map enrichedTrackOf := by
  obtain ⟨hini, hdbg, hq, hcalls⟩ := runOps_tracks_queue beh env ins startState rfl
  have hcap : (List.map enrichedQueued ins).length ≤
      MAX_QUEUE_SIZE - startState.queue.length := by
    simpa [startState] using hlen
  have hq' : (runOps beh env (trackOpsOf ins) startState).1.queue =
      ins.map enrichedQueued := by
    rw [hq, List.take_of_length_le hcap]
    simp [startState]
  rw [runOps_append]
  simp only [runOps, runOp]
  rw [hcalls]
  simp only [List.nil_append, List.append_nil]
  rw [init_trace_of_queue beh env token debug _ h0 h1, hq']
  simp [List.map_map, enrichedTrackOf, Function.comp]

theorem C1_witness :
    ([(⟨"t1", .SessionEnded, [], false⟩ : TrackIn),
        ⟨"t2", .FeedbackButtonClicked, [], true⟩].length ≤ MAX_QUEUE_SIZE ∧
      behNone.initFails 0 = false ∧ behNone.registerFails 0 = false) ∧
    trackCalls (runOps behNone ⟨true⟩
        (trackOpsOf [⟨"t1", .SessionEnded, [], false⟩,
          ⟨"t2", .FeedbackButtonClicked, [], true⟩] ++ [Op.initMP "tok" true])
        startState).2.1 =
      [(⟨"t1", .SessionEnded, [], false⟩ : TrackIn),
        ⟨"t2", .FeedbackButtonClicked, [], true⟩].map enrichedTrackOf :=
  ⟨⟨by decide, rfl, rfl⟩,
    C1_fifo behNone ⟨true⟩ "tok" true _ (by decide) rfl rfl⟩

/-- Claim C2: capacity.  The backlog never exceeds `MAX_QUEUE_SIZE` entries: a
pre-initialization `trackEvent` call arriving at a full queue drops the new
(newest) event without raising (its callback still runs), so queueing
`MAX_QUEUE_SIZE + 1` events before readiness leaves exactly the first
`MAX_QUEUE_SIZE` in the queue and delivers exactly those after drain, the
newest being absent. -/
theorem C2_capacity (beh : SinkBehavior) (env : Env) (token : String) (debug : Bool)
    (ins50 : List TrackIn) (iNew : TrackIn)
    (hlen : ins50.length = MAX_QUEUE_SIZE)
    (h0 : beh.initFails 0 = false) (h1 : beh.registerFails 0 = false) :
    (runOps beh env (trackOpsOf (ins50 ++ [iNew])) startState).1.queue =
      ins50.map enrichedQueued ∧
    trackEvent beh iNew.now iNew.name iNew.payload iNew.callback
        (runOps beh env (trackOpsOf ins50) startState).1 =
      .ok ⟨(runOps beh env (trackOpsOf ins50) startState).1, [],
        callbackRuns iNew.callback, []⟩ ∧
    trackCalls (runOps beh env
        (trackOpsOf (ins50 ++ [iNew]) ++ [Op.initMP token debug]) startState).2.1 =
      ins50.map enrichedTrackOf := by
  obtain ⟨hini, hdbg, hq, hcalls⟩ :=
    runOps_tracks_queue beh env (ins50 ++ [iNew]) startState rfl
  have hqFull : (runOps beh env (trackOpsOf (ins50 ++ [iNew])) startState).1.queue =
      ins50.map enrichedQueued := by
    rw [hq]
    simp only [startState, List.length_nil, Nat.sub_zero, List.nil_append,
      List.map_append]
    exact List.take_left' (by simpa using hlen)
  obtain ⟨hini50, _, hq50, _⟩ := runOps_tracks_queue beh env ins50 startState rfl
  have hcap : (List.map enrichedQueued ins50).length ≤
      MAX_QUEUE_SIZE - startState.queue.length := by
    simpa [startState] using hlen.le
  have hq50' : (runOps beh env (trackOpsOf ins50) startState).1.queue =
      ins50.map enrichedQueued := by
    rw [hq50, List.take_of_length_le hcap]
    simp [startState]
  have hnotlt : ¬ (runOps beh env (trackOpsOf ins50) startState).1.queue.length <
      MAX_QUEUE_SIZE := by
    rw [hq50']
    simp [hlen]
  refine ⟨hqFull, ?_, ?_⟩
  · simp [trackEvent, trackEventTry, hini50, hnotlt]
  · rw [runOps_append]
    simp only [runOps, runOp]
    rw [hcalls]
    simp only [List.nil_append, List.append_nil]
    rw [init_trace_of_queue beh env token debug _ h0 h1, hqFull]
    simp [List.map_map, enrichedTrackOf, Function.comp]

theorem C2_witness :
    ((List.replicate 50 (⟨"T", .SessionStarted, [], false⟩ : TrackIn)).length =
        MAX_QUEUE_SIZE ∧
      behNone.initFails 0 = false ∧ behNone.registerFails 0 = false) ∧
    ((runOps behNone ⟨false⟩
        (trackOpsOf (List.replicate 50 (⟨"T", .SessionStarted, [], false⟩ : TrackIn) ++
          [⟨"T9", .FeedbackSubmitted, [("feedback_text", .str "v")], true⟩]))
        startState).1.queue =
      (List.replicate 50 (⟨"T", .SessionStarted, [], false⟩ : TrackIn)).map
        enrichedQueued ∧
    trackEvent behNone "T9" .FeedbackSubmitted [("feedback_text", .str "v")] true
        (runOps behNone ⟨false⟩
          (trackOpsOf (List.replicate 50 (⟨"T", .SessionStarted, [], false⟩ : TrackIn)))
          startState).1 =
      .ok ⟨(runOps behNone ⟨false⟩
          (trackOpsOf (List.replicate 50 (⟨"T", .SessionStarted, [], false⟩ : TrackIn)))
          startState).1, [], callbackRuns true, []⟩ ∧
    trackCalls (runOps behNone ⟨false⟩
        (trackOpsOf (List.replicate 50 (⟨"T", .SessionStarted, [], false⟩ : TrackIn) ++
          [⟨"T9", .FeedbackSubmitted, [("feedback_text", .str "v")], true⟩]) ++
          [Op.initMP "tok" false]) startState).2.1 =
      (List.replicate 50 (⟨"T", .SessionStarted, [], false⟩ : TrackIn)).map
        enrichedTrackOf) :=
  ⟨⟨by decide, rfl, rfl⟩,
    C2_capacity behNone ⟨false⟩ "tok" false
      (List.replicate 50 ⟨"T", .SessionStarted, [], false⟩)
      ⟨"T9", .FeedbackSubmitted, [("feedback_text", .str "v")], true⟩
      (by decide) rfl rfl⟩

/-- Claim C7: Scenario A.  A `trackEvent('FeedbackSubmitted', ...)` call made
before initialization queues the event; after a successful first
initialization attempt the sink receives exactly one `track` call for it,
whose payload carries the caller's `feedback_text`, the catalog category
`Feedback`, and the call-time timestamp (the payload supplied none). -/
theorem C7_scenario_a (beh : SinkBehavior) (env : Env) (token : String)
    (debug : Bool) (now : String)
    (h0 : beh.initFails 0 = false) (h1 : beh.registerFails 0 = false) :
    (runOps beh env [Op.track now .FeedbackSubmitted
        [("feedback_text", .str "great app")] false] startState).1.queue =
      [⟨"FeedbackSubmitted",
        enrich .FeedbackSubmitted now [("feedback_text", .str "great app")]⟩] ∧
    trackCalls (runOps beh env
        [Op.track now .FeedbackSubmitted [("feedback_text", .str "great app")] false,
          Op.initMP token debug] startState).2.1 =
      [SinkCall.track "FeedbackSubmitted"
        (enrich .FeedbackSubmitted now [("feedback_text", .str "great app")])] ∧
    getField (enrich .FeedbackSubmitted now [("feedback_text", .str "great app")])
      "feedback_text" = some (.str "great app") ∧
    getField (enrich .FeedbackSubmitted now [("feedback_text", .str "great app")])
      "event_category" = some (.str "Feedback") ∧
    getField (enrich .FeedbackSubmitted now [("feedback_text", .str "great app")])
      "timestamp" = some (.str now) := by
  refine ⟨?_, ?_, ?_, ?_, ?_⟩
  · simp [runOps, runOp, trackEvent, trackEventTry, startState, eventNameStr]
  · simp [runOps, runOp, trackEvent, trackEventTry, startState, initMixpanel, initLoop,
      h0, h1, flushEventQueue, flushLoop, trackCalls, isTrackCall, eventNameStr]
  · simp [enrich, getField, setField]
  · simp [enrich, getField, setField, EVENT_CATEGORIES, EventCategory.val]
  · simp [enrich, getField, setField]

theorem C7_witness :
    (behNone.initFails 0 = false ∧ behNone.registerFails 0 = false) ∧
    ((runOps behNone ⟨false⟩ [Op.track "N" .FeedbackSubmitted
        [("feedback_text", .str "great app")] false] startState).1.queue =
      [⟨"FeedbackSubmitted",
        enrich .FeedbackSubmitted "N" [("feedback_text", .str "great app")]⟩] ∧
    trackCalls (runOps behNone ⟨false⟩
        [Op.track "N" .FeedbackSubmitted [("feedback_text", .str "great app")] false,
          Op.initMP "token" false] startState).2.1 =
      [SinkCall.track "FeedbackSubmitted"
        (enrich .FeedbackSubmitted "N" [("feedback_text", .str "great app")])] ∧
    getField (enrich .FeedbackSubmitted "N" [("feedback_text", .str "great app")])
      "feedback_text" = some (.str "great app") ∧
    getField (enrich .FeedbackSubmitted "N" [("feedback_text", .str "great app")])
      "event_category" = some (.str "Feedback") ∧
    getField (enrich .FeedbackSubmitted "N" [("feedback_text", .str "great app")])
      "timestamp" = some (.str "N")) :=
  ⟨⟨rfl, rfl⟩, C7_scenario_a behNone ⟨false⟩ "token" false "N" rfl rfl⟩

theorem C9_witness :
    (("feedback_text" : String) ≠ "event_category" ∧
      ("feedback_text" : String) ≠ "timestamp") ∧
    getField (enrich .FeedbackSubmitted "2026-01-01T00:00:00.000Z"
        [("feedback_text", .str "hi"), ("timestamp", .str "")]) "feedback_text" =
      some (.str "hi") ∧
    getField (enrich .FeedbackSubmitted "2026-01-01T00:00:00.000Z"
        [("feedback_text", .str "hi"), ("timestamp", .str "")]) "event_category" =
      some (.str "Feedback") ∧
    getField (enrich .FeedbackSubmitted "2026-01-01T00:00:00.000Z"
        [("feedback_text", .str "hi"), ("timestamp", .str "")]) "timestamp" =
      some (.str "2026-01-01T00:00:00.000Z") := by
  have h := C9_enrichment_frame .FeedbackSubmitted "2026-01-01T00:00:00.000Z"
    [("feedback_text", .str "hi"), ("timestamp", .str "")]
  exact ⟨⟨by decide, by decide⟩, h.1 "feedback_text" (by decide) (by decide),
    h.2.1, h.2.2⟩

end Mixpanel
